import Mathlib

/-
  Verification of the emotion/streak core of the sol-api backend.

  The definitions below are a shallow embedding of the TypeScript source:
  - src/model/emotional.model.ts   (8-value emotion vocabulary and mapping)
  - src/utils/emotionConverter.ts  (EmotionUtils)
  - src/utils/intensityConverter.ts (IntensityConverter, IntensityDatabaseHelper)
  - src/controllers/emotion/emotion.controller.ts (updateUserStreak)
  - src/repositories/streak.repository.ts (incrementMoodCount, updateStreak, resetStreak)
  - src/repositories/emotional.repository.ts (getEmotionStats, two variants)
  - src/services/openai.service.ts (OpenAIService with rule-based fallbacks)

  JavaScript primitives (toLowerCase, trim, Number, parseFloat, Math.round)
  are modelled explicitly; numbers are modelled as exact rationals.
-/

/-! ## JavaScript string primitives -/

/-- Lowercasing of a single character as performed by
String.prototype.toLowerCase, restricted to the alphabets that occur in the
repository: ASCII A-Z and the Ukrainian Cyrillic capitals. -/
def jsLowerChar (c : Char) : Char :=
  let n := c.toNat
  if 65 ≤ n ∧ n ≤ 90 then Char.ofNat (n + 32)
  else if 0x410 ≤ n ∧ n ≤ 0x42F then Char.ofNat (n + 0x20)
  else if n = 0x404 then Char.ofNat 0x454
  else if n = 0x406 then Char.ofNat 0x456
  else if n = 0x407 then Char.ofNat 0x457
  else if n = 0x490 then Char.ofNat 0x491
  else c

/-- Uppercasing of a single character as performed by
String.prototype.toUpperCase, restricted to the same alphabets. -/
def jsUpperChar (c : Char) : Char :=
  let n := c.toNat
  if 97 ≤ n ∧ n ≤ 122 then Char.ofNat (n - 32)
  else if 0x430 ≤ n ∧ n ≤ 0x44F then Char.ofNat (n - 0x20)
  else if n = 0x454 then Char.ofNat 0x404
  else if n = 0x456 then Char.ofNat 0x406
  else if n = 0x457 then Char.ofNat 0x407
  else if n = 0x491 then Char.ofNat 0x490
  else c

/-- Model of String.prototype.toLowerCase. -/
def jsToLower (s : String) : String := ⟨s.data.map jsLowerChar⟩

/-- Model of String.prototype.toUpperCase. -/
def jsToUpper (s : String) : String := ⟨s.data.map jsUpperChar⟩

/-- The JavaScript whitespace characters recognised by String.prototype.trim
and by numeric conversion. -/
def isJsSpace (c : Char) : Bool :=
  c == ' ' || c == '\t' || c == '\n' || c == '\r' ||
  c.toNat == 0x0B || c.toNat == 0x0C || c.toNat == 0xA0 ||
  c.toNat == 0xFEFF || c.toNat == 0x2028 || c.toNat == 0x2029

/-- Model of String.prototype.trim (strip whitespace from both ends). -/
def jsTrim (s : String) : String :=
  ⟨((s.data.dropWhile isJsSpace).reverse.dropWhile isJsSpace).reverse⟩

/-! ## Emotion vocabulary (src/model/emotional.model.ts) -/

/-- The EmotionType enum of the 8-emotion model. -/
inductive EmotionType
  | JOYFUL
  | SATISFIED
  | NEUTRAL
  | ANXIOUS
  | SAD
  | ANGRY
  | EXCITED
  | TIRED
deriving DecidableEq, Fintype

/-- The string value of each EmotionType enum member. -/
def EmotionType.value : EmotionType → String
  | .JOYFUL => "joyful"
  | .SATISFIED => "satisfied"
  | .NEUTRAL => "neutral"
  | .ANXIOUS => "anxious"
  | .SAD => "sad"
  | .ANGRY => "angry"
  | .EXCITED => "excited"
  | .TIRED => "tired"

/-- Object.values(EmotionType), in declaration order. -/
def EmotionType.all : List EmotionType :=
  [.JOYFUL, .SATISFIED, .NEUTRAL, .ANXIOUS, .SAD, .ANGRY, .EXCITED, .TIRED]

/-- The EmotionTypeUkrainian enum (members transliterated; the string values
are the original Cyrillic ones). -/
inductive EmotionTypeUkrainian
  | RADISNYI
  | ZADOVOLENYI
  | NEITRALNYI
  | TRYVOZHNYI
  | SUMNYI
  | ZLYI
  | ZBUDZHENYI
  | VTOMLENYI
deriving DecidableEq, Fintype

/-- The string value of each EmotionTypeUkrainian enum member. -/
def EmotionTypeUkrainian.value : EmotionTypeUkrainian → String
  | .RADISNYI => "радісний"
  | .ZADOVOLENYI => "задоволений"
  | .NEITRALNYI => "нейтральний"
  | .TRYVOZHNYI => "тривожний"
  | .SUMNYI => "сумний"
  | .ZLYI => "злий"
  | .ZBUDZHENYI => "збуджений"
  | .VTOMLENYI => "втомлений"

/-- Object.values(EmotionTypeUkrainian), in declaration order. -/
def EmotionTypeUkrainian.all : List EmotionTypeUkrainian :=
  [.RADISNYI, .ZADOVOLENYI, .NEITRALNYI, .TRYVOZHNYI, .SUMNYI, .ZLYI,
   .ZBUDZHENYI, .VTOMLENYI]

namespace EMOTION_MAPPING

/-- EMOTION_MAPPING.toEnglish: the Ukrainian-to-English lookup object. -/
def toEnglish : EmotionTypeUkrainian → EmotionType
  | .RADISNYI => .JOYFUL
  | .ZADOVOLENYI => .SATISFIED
  | .NEITRALNYI => .NEUTRAL
  | .TRYVOZHNYI => .ANXIOUS
  | .SUMNYI => .SAD
  | .ZLYI => .ANGRY
  | .ZBUDZHENYI => .EXCITED
  | .VTOMLENYI => .TIRED

/-- EMOTION_MAPPING.toUkrainian: the English-to-Ukrainian lookup object. -/
def toUkrainian : EmotionType → EmotionTypeUkrainian
  | .JOYFUL => .RADISNYI
  | .SATISFIED => .ZADOVOLENYI
  | .NEUTRAL => .NEITRALNYI
  | .ANXIOUS => .TRYVOZHNYI
  | .SAD => .SUMNYI
  | .ANGRY => .ZLYI
  | .EXCITED => .ZBUDZHENYI
  | .TIRED => .VTOMLENYI

end EMOTION_MAPPING

/-! ## EmotionUtils (src/utils/emotionConverter.ts) -/

namespace EmotionUtils

/-- EmotionUtils.toEnglish: lowercase and trim the input, return it if it is
an EmotionType value, otherwise look it up in EMOTION_MAPPING.toEnglish,
otherwise default to NEUTRAL. -/
def toEnglish (emotion : String) : EmotionType :=
  match EmotionType.all.find? (fun e => e.value == jsToLower (jsTrim emotion)) with
  | some e => e
  | none =>
    match EmotionTypeUkrainian.all.find?
        (fun u => u.value == jsToLower (jsTrim emotion)) with
    | some u => EMOTION_MAPPING.toEnglish u
    | none => EmotionType.NEUTRAL

/-- EmotionUtils.toUkrainian: look the emotion up in EMOTION_MAPPING.toUkrainian.
The lookup object is total on EmotionType, so the source's default branch
(the string for neutral) is unreachable. -/
def toUkrainian (emotion : EmotionType) : String :=
  (EMOTION_MAPPING.toUkrainian emotion).value

/-- EmotionUtils.isValidEmotion: membership of the lowercased, trimmed input
in either vocabulary. -/
def isValidEmotion (emotion : String) : Bool :=
  (EmotionType.all.any (fun e => e.value == jsToLower (jsTrim emotion))) ||
  (EmotionTypeUkrainian.all.any (fun u => u.value == jsToLower (jsTrim emotion)))

end EmotionUtils

/-- The setter of the emotion field of emotionEntrySchema: it applies
EmotionUtils.toEnglish to the stored value. -/
def emotionFieldSet (value : String) : EmotionType :=
  EmotionUtils.toEnglish value

/-! ## Claims C2 and C10 -/

/-- C2: toEnglish inverts toUkrainian on every EmotionType value, toEnglish is
the identity on every string whose lowercased trimmed form is an English
emotion name of the enum, and the EMOTION_MAPPING.toUkrainian object is the
two-sided inverse of EMOTION_MAPPING.toEnglish on the eight emotion values. -/
theorem emotionUtils_roundtrip_c2 :
    (∀ e : EmotionType, EmotionUtils.toEnglish (EmotionUtils.toUkrainian e) = e) ∧
    (∀ (s : String) (e : EmotionType),
      jsToLower (jsTrim s) = e.value → EmotionUtils.toEnglish s = e) ∧
    (∀ u : EmotionTypeUkrainian,
      EMOTION_MAPPING.toUkrainian (EMOTION_MAPPING.toEnglish u) = u) ∧
    (∀ e : EmotionType,
      EMOTION_MAPPING.toEnglish (EMOTION_MAPPING.toUkrainian e) = e) := by
  refine ⟨by decide, ?_, by decide, by decide⟩
  intro s e h
  simp only [EmotionUtils.toEnglish, h]
  cases e <;> rfl

/-- C2 witness: the round trip and the identity at concrete inputs. -/
theorem emotionUtils_roundtrip_c2_witness :
    EmotionUtils.toEnglish " JOYFUL " = EmotionType.JOYFUL :=
  emotionUtils_roundtrip_c2.2.1 " JOYFUL " EmotionType.JOYFUL (by decide)

/-- C10: EmotionUtils.toEnglish is total and always lands in the EmotionType
enum: recognised English names map to themselves, recognised Ukrainian names
map through EMOTION_MAPPING.toEnglish, anything else maps to NEUTRAL, and the
emotion-field setter of the entry schema therefore always produces a value the
enum validator accepts. -/
theorem toEnglish_total_c10 :
    (∀ (s : String) (e : EmotionType),
      jsToLower (jsTrim s) = e.value → EmotionUtils.toEnglish s = e) ∧
    (∀ (s : String) (u : EmotionTypeUkrainian),
      jsToLower (jsTrim s) = u.value →
        EmotionUtils.toEnglish s = EMOTION_MAPPING.toEnglish u) ∧
    (∀ s : String,
      (∀ e : EmotionType, jsToLower (jsTrim s) ≠ e.value) →
      (∀ u : EmotionTypeUkrainian, jsToLower (jsTrim s) ≠ u.value) →
        EmotionUtils.toEnglish s = EmotionType.NEUTRAL) ∧
    (∀ s : String, emotionFieldSet s ∈ EmotionType.all) := by
  refine ⟨?_, ?_, ?_, ?_⟩
  · intro s e h
    simp only [EmotionUtils.toEnglish, h]
    cases e <;> rfl
  · intro s u h
    simp only [EmotionUtils.toEnglish, h]
    cases u <;> rfl
  · intro s he hu
    have h1 : EmotionType.all.find?
        (fun e => e.value == jsToLower (jsTrim s)) = none := by
      rw [List.find?_eq_none]
      intro e _
      simpa using fun h => he e h.symm
    have h2 : EmotionTypeUkrainian.all.find?
        (fun u => u.value == jsToLower (jsTrim s)) = none := by
      rw [List.find?_eq_none]
      intro u _
      simpa using fun h => hu u h.symm
    simp only [EmotionUtils.toEnglish, h1, h2]
  · intro s
    exact (by decide : ∀ x : EmotionType, x ∈ EmotionType.all) _

/-- C10 witness: concrete recognised and unrecognised inputs. -/
theorem toEnglish_total_c10_witness :
    EmotionUtils.toEnglish "Сумний" = EmotionType.SAD :=
  toEnglish_total_c10.2.1 "Сумний" EmotionTypeUkrainian.SUMNYI (by decide)

/-! ## JavaScript numbers -/

/-- A JavaScript number: an exact finite rational, NaN, or an infinity. -/
inductive JSNum
  | finite (q : ℚ)
  | nan
  | inf
  | negInf
deriving DecidableEq

/-- Unary minus on a JavaScript number. -/
def JSNum.neg : JSNum → JSNum
  | .finite q => .finite (-q)
  | .nan => .nan
  | .inf => .negInf
  | .negInf => .inf

/-- Math.round: round to the nearest integer, halves towards positive
infinity. -/
def jsRound (q : ℚ) : ℤ := ⌊q + 1 / 2⌋

/-- Value of a list of decimal digit characters. -/
def decDigitsVal (l : List Char) : ℕ :=
  l.foldl (fun a c => 10 * a + (c.toNat - 48)) 0

/-- Magnitude part of parseFloat: an Infinity literal or the longest decimal
literal prefix (digits, optional fraction, optional exponent whose digits may
be missing, in which case the exponent marker is not consumed). -/
def jsParseFloatMag (cs : List Char) : JSNum :=
  if "Infinity".data.isPrefixOf cs then .inf
  else
    let ds1 := cs.takeWhile Char.isDigit
    let r1 := cs.drop ds1.length
    let ds2 := match r1 with
      | '.' :: t => t.takeWhile Char.isDigit
      | _ => []
    let r2 := match r1 with
      | '.' :: t => t.drop (t.takeWhile Char.isDigit).length
      | _ => r1
    if ds1.isEmpty ∧ ds2.isEmpty then .nan
    else
      let m : ℚ := (decDigitsVal ds1 : ℚ) + (decDigitsVal ds2 : ℚ) / 10 ^ ds2.length
      let e : ℤ := match r2 with
        | c :: t =>
          if c = 'e' ∨ c = 'E' then
            match t with
            | '+' :: u => (decDigitsVal (u.takeWhile Char.isDigit) : ℤ)
            | '-' :: u => -(decDigitsVal (u.takeWhile Char.isDigit) : ℤ)
            | u => (decDigitsVal (u.takeWhile Char.isDigit) : ℤ)
          else 0
        | [] => 0
      .finite (m * (10 : ℚ) ^ e)

/-- Model of parseFloat: skip leading whitespace, read an optional sign, then
the longest numeric prefix; NaN when no digits are found. -/
def jsParseFloat (s : String) : JSNum :=
  match s.data.dropWhile isJsSpace with
  | '+' :: t => jsParseFloatMag t
  | '-' :: t => (jsParseFloatMag t).neg
  | t => jsParseFloatMag t

/-- Value of a list of hexadecimal digit characters. -/
def hexDigitsVal (l : List Char) : ℕ :=
  l.foldl (fun a c =>
    16 * a +
      (if c.isDigit then c.toNat - 48
       else if 'a' ≤ c ∧ c ≤ 'f' then c.toNat - 87
       else c.toNat - 55)) 0

/-- Whether a character is a hexadecimal digit. -/
def isHexDigit (c : Char) : Bool :=
  c.isDigit || ('a' ≤ c && c ≤ 'f') || ('A' ≤ c && c ≤ 'F')

/-- Decimal magnitude of the Number conversion: the whole remaining input must
be an Infinity literal or a decimal literal (digits, optional fraction,
optional exponent with at least one digit); otherwise NaN. -/
def jsNumberDec (cs : List Char) : JSNum :=
  if cs = "Infinity".data then .inf
  else
    let ds1 := cs.takeWhile Char.isDigit
    let r1 := cs.drop ds1.length
    let ds2 := match r1 with
      | '.' :: t => t.takeWhile Char.isDigit
      | _ => []
    let r2 := match r1 with
      | '.' :: t => t.drop (t.takeWhile Char.isDigit).length
      | _ => r1
    if ds1.isEmpty ∧ ds2.isEmpty then .nan
    else
      let m : ℚ := (decDigitsVal ds1 : ℚ) + (decDigitsVal ds2 : ℚ) / 10 ^ ds2.length
      match r2 with
      | [] => .finite m
      | c :: t =>
        if c = 'e' ∨ c = 'E' then
          let signedDigits : Option ℤ := match t with
            | '+' :: u =>
              if (u.takeWhile Char.isDigit).length = u.length ∧ ¬u.isEmpty
              then some (decDigitsVal u : ℤ) else none
            | '-' :: u =>
              if (u.takeWhile Char.isDigit).length = u.length ∧ ¬u.isEmpty
              then some (-(decDigitsVal u : ℤ)) else none
            | u =>
              if (u.takeWhile Char.isDigit).length = u.length ∧ ¬u.isEmpty
              then some (decDigitsVal u : ℤ) else none
          match signedDigits with
          | some e => .finite (m * (10 : ℚ) ^ e)
          | none => .nan
        else .nan

/-- Unsigned magnitude of the Number conversion: hexadecimal, octal and binary
literals (which admit no sign) or a decimal literal. -/
def jsNumberMag (cs : List Char) : JSNum :=
  match cs with
  | '0' :: x :: u =>
    if x = 'x' ∨ x = 'X' then
      if (u.takeWhile isHexDigit).length = u.length ∧ ¬u.isEmpty
      then .finite (hexDigitsVal u : ℚ) else .nan
    else if x = 'o' ∨ x = 'O' then
      if (u.takeWhile (fun c => '0' ≤ c && c ≤ '7')).length = u.length ∧ ¬u.isEmpty
      then .finite ((u.foldl (fun a c => 8 * a + (c.toNat - 48)) 0 : ℕ) : ℚ) else .nan
    else if x = 'b' ∨ x = 'B' then
      if (u.takeWhile (fun c => c = '0' ∨ c = '1')).length = u.length ∧ ¬u.isEmpty
      then .finite ((u.foldl (fun a c => 2 * a + (c.toNat - 48)) 0 : ℕ) : ℚ) else .nan
    else jsNumberDec cs
  | _ => jsNumberDec cs

/-- Model of the Number conversion applied to a string: trim whitespace from
both ends, map the empty string to 0, otherwise parse the whole remainder as a
(possibly signed) numeric literal. -/
def jsNumberOfString (s : String) : JSNum :=
  match ((s.data.dropWhile isJsSpace).reverse.dropWhile isJsSpace).reverse with
  | [] => .finite 0
  | '+' :: t => jsNumberDec t
  | '-' :: t => (jsNumberDec t).neg
  | t => jsNumberMag t

/-! ## EmotionUtils.normalizeIntensity (src/utils/emotionConverter.ts) -/

/-- An argument of type number | string. -/
inductive NumOrStr
  | ofNum (n : JSNum)
  | ofStr (s : String)
deriving DecidableEq

/-- The local num of normalizeIntensity: parseFloat on strings, the value
itself on numbers. -/
def numOf : NumOrStr → JSNum
  | .ofNum n => n
  | .ofStr s => jsParseFloat s

namespace EmotionUtils

/-- EmotionUtils.normalizeIntensity: 5 for non-finite inputs, clamp into
[1, 10], otherwise Math.round. -/
def normalizeIntensity (intensity : NumOrStr) : ℤ :=
  match numOf intensity with
  | .finite q => if q < 1 then 1 else if q > 10 then 10 else jsRound q
  | _ => 5

/-- EmotionUtils.validateIntensity: an integer between 1 and 10. -/
def validateIntensity (intensity : ℚ) : Bool :=
  intensity.den == 1 && 1 ≤ intensity && intensity ≤ 10

end EmotionUtils

/-! ## Claim C4 -/

/-- C4: normalizeIntensity always returns an integer between 1 and 10:
non-finite inputs (including strings that do not parse) give 5, values below 1
give 1, values above 10 give 10, and values in range are rounded to the
nearest integer (halves up). -/
theorem normalizeIntensity_range_c4 :
    (∀ v : NumOrStr,
      1 ≤ EmotionUtils.normalizeIntensity v ∧
        EmotionUtils.normalizeIntensity v ≤ 10) ∧
    (∀ v : NumOrStr, (∀ q : ℚ, numOf v ≠ .finite q) →
      EmotionUtils.normalizeIntensity v = 5) ∧
    (∀ (v : NumOrStr) (q : ℚ), numOf v = .finite q →
      (q < 1 → EmotionUtils.normalizeIntensity v = 1) ∧
      (q > 10 → EmotionUtils.normalizeIntensity v = 10) ∧
      (1 ≤ q → q ≤ 10 →
        EmotionUtils.normalizeIntensity v = jsRound q ∧
        |q - (jsRound q : ℚ)| ≤ 1 / 2)) := by
  have hround : ∀ q : ℚ, |q - (jsRound q : ℚ)| ≤ 1 / 2 := by
    intro q
    rw [abs_le]
    constructor
    · have h := Int.floor_le (q + 1 / 2)
      simp only [jsRound]
      linarith
    · have h := Int.lt_floor_add_one (q + 1 / 2)
      simp only [jsRound]
      linarith
  have hbounds : ∀ q : ℚ, 1 ≤ q → q ≤ 10 → 1 ≤ jsRound q ∧ jsRound q ≤ 10 := by
    intro q h1 h10
    constructor
    · have h : (1 : ℚ) ≤ q + 1 / 2 := by linarith
      have := Int.le_floor.mpr (by exact_mod_cast h)
      simpa [jsRound] using this
    · have h : q + 1 / 2 ≤ 21 / 2 := by linarith
      have hm := Int.floor_le_floor h
      have hv : ⌊(21 / 2 : ℚ)⌋ = 10 := by norm_num
      rw [hv] at hm
      simpa [jsRound] using hm
  refine ⟨?_, ?_, ?_⟩
  · intro v
    cases h : numOf v with
    | finite q =>
      simp only [EmotionUtils.normalizeIntensity, h]
      split_ifs with h1 h2
      · norm_num
      · norm_num
      · push_neg at h1 h2
        exact hbounds q h1 h2
    | nan => simp [EmotionUtils.normalizeIntensity, h]
    | inf => simp [EmotionUtils.normalizeIntensity, h]
    | negInf => simp [EmotionUtils.normalizeIntensity, h]
  · intro v hv
    cases h : numOf v with
    | finite q => exact absurd h (hv q)
    | nan => simp [EmotionUtils.normalizeIntensity, h]
    | inf => simp [EmotionUtils.normalizeIntensity, h]
    | negInf => simp [EmotionUtils.normalizeIntensity, h]
  · intro v q h
    refine ⟨?_, ?_, ?_⟩
    · intro hlt
      simp [EmotionUtils.normalizeIntensity, h, hlt]
    · intro hgt
      have : ¬q < 1 := by linarith
      simp [EmotionUtils.normalizeIntensity, h, this, hgt]
    · intro h1 h10
      have hn1 : ¬q < 1 := by linarith
      have hn10 : ¬q > 10 := by linarith
      exact ⟨by simp [EmotionUtils.normalizeIntensity, h, hn1, hn10], hround q⟩

/-- C4 witness: concrete inputs exercising each branch. -/
theorem normalizeIntensity_range_c4_witness :
    EmotionUtils.normalizeIntensity (.ofStr "abc") = 5 ∧
    EmotionUtils.normalizeIntensity (.ofNum (.finite (1 / 2))) = 1 ∧
    EmotionUtils.normalizeIntensity (.ofNum (.finite 42)) = 10 ∧
    EmotionUtils.normalizeIntensity (.ofNum (.finite 8)) = 8 := by
  have habc : numOf (.ofStr "abc") = .nan := by decide
  refine ⟨normalizeIntensity_range_c4.2.1 (.ofStr "abc")
      (fun q hq => by rw [habc] at hq; exact JSNum.noConfusion hq),
    (normalizeIntensity_range_c4.2.2 (.ofNum (.finite (1 / 2))) (1 / 2) rfl).1
      (by norm_num),
    (normalizeIntensity_range_c4.2.2 (.ofNum (.finite 42)) 42 rfl).2.1
      (by norm_num), ?_⟩
  have h := ((normalizeIntensity_range_c4.2.2 (.ofNum (.finite 8)) 8
    rfl).2.2 (by norm_num) (by norm_num)).1
  rw [h, jsRound]
  norm_num

/-! ## IntensityConverter (src/utils/intensityConverter.ts) -/

/-- The IntensityLevel enum of the five-level intensity model. -/
inductive IntensityLevel
  | VERY_LOW
  | LOW
  | MODERATE
  | HIGH
  | VERY_HIGH
deriving DecidableEq, Fintype

/-- The string value of each IntensityLevel enum member. -/
def IntensityLevel.value : IntensityLevel → String
  | .VERY_LOW => "VERY_LOW"
  | .LOW => "LOW"
  | .MODERATE => "MODERATE"
  | .HIGH => "HIGH"
  | .VERY_HIGH => "VERY_HIGH"

/-- Object.values(IntensityLevel), in declaration order. -/
def IntensityLevel.all : List IntensityLevel :=
  [.VERY_LOW, .LOW, .MODERATE, .HIGH, .VERY_HIGH]

/-- An arbitrary JavaScript input value as classified by the converter:
a number, a string, or anything else. -/
inductive JSVal
  | num (n : JSNum)
  | str (s : String)
  | other
deriving DecidableEq

namespace IntensityConverter

/-- The numberToEnum lookup object of toDatabase: keys 1 to 5. A JavaScript
property access converts the numeric index to its canonical string, so a
finite rational matches key k exactly when it equals k. -/
def numberToEnum (q : ℚ) : Option IntensityLevel :=
  if q = 1 then some .VERY_LOW
  else if q = 2 then some .LOW
  else if q = 3 then some .MODERATE
  else if q = 4 then some .HIGH
  else if q = 5 then some .VERY_HIGH
  else none

/-- IntensityConverter.toDatabase: numbers go through the numberToEnum lookup;
strings are first parsed with Number and, when that yields an integer with an
entry in the lookup, converted, otherwise uppercased and matched against the
enum values; every other input gives null. -/
def toDatabase : JSVal → Option IntensityLevel
  | .num (.finite q) => numberToEnum q
  | .num _ => none
  | .str s =>
    let fromNumber : Option IntensityLevel :=
      match jsNumberOfString s with
      | .finite q => if q.den = 1 then numberToEnum q else none
      | _ => none
    match fromNumber with
    | some l => some l
    | none => IntensityLevel.all.find? (fun l => l.value == jsToUpper s)
  | .other => none

end IntensityConverter

namespace IntensityDatabaseHelper

/-- IntensityDatabaseHelper.prepareForSave: return the converted level, or
throw when toDatabase gives null. -/
def prepareForSave (intensity : JSVal) : Except String IntensityLevel :=
  match IntensityConverter.toDatabase intensity with
  | some dbValue => .ok dbValue
  | none => .error "Invalid intensity value. Must be number 1-5 or level string (VERY_LOW, LOW, MODERATE, HIGH, VERY_HIGH)"

end IntensityDatabaseHelper

/-! ## Claim C3 -/

/-- The numberToEnum lookup succeeds exactly on the integers 1 to 5. -/
theorem numberToEnum_isSome (q : ℚ) :
    (IntensityConverter.numberToEnum q).isSome ↔ q.den = 1 ∧ 1 ≤ q ∧ q ≤ 5 := by
  constructor
  · intro h
    simp only [IntensityConverter.numberToEnum] at h
    split_ifs at h with h1 h2 h3 h4 h5 <;>
      first
        | (subst h1; norm_num)
        | (subst h2; norm_num)
        | (subst h3; norm_num)
        | (subst h4; norm_num)
        | (subst h5; norm_num)
        | simp at h
  · rintro ⟨hden, h1, h5⟩
    have hq : (q.num : ℚ) = q := by
      conv_rhs => rw [← Rat.num_div_den q]
      rw [hden]
      norm_num
    have hn1 : (1 : ℚ) ≤ (q.num : ℚ) := by rw [hq]; exact h1
    have hn5 : (q.num : ℚ) ≤ 5 := by rw [hq]; exact h5
    have hi1 : (1 : ℤ) ≤ q.num := by exact_mod_cast hn1
    have hi5 : q.num ≤ 5 := by exact_mod_cast hn5
    have hcases : q.num = 1 ∨ q.num = 2 ∨ q.num = 3 ∨ q.num = 4 ∨ q.num = 5 := by
      omega
    rw [← hq]
    rcases hcases with h | h | h | h | h <;> rw [h] <;>
      norm_num [IntensityConverter.numberToEnum]

/-- C3: toDatabase returns a level exactly when the input is a number equal to
an integer 1 to 5, a string whose Number conversion is such an integer, or a
string whose uppercasing is one of the five level names; the integers map in
order VERY_LOW to VERY_HIGH; and prepareForSave throws exactly when toDatabase
returns null. -/
theorem toDatabase_characterisation_c3 :
    (∀ v : JSVal,
      (IntensityConverter.toDatabase v).isSome ↔
        ((∃ q : ℚ, v = .num (.finite q) ∧ q.den = 1 ∧ 1 ≤ q ∧ q ≤ 5) ∨
         (∃ s : String, v = .str s ∧
           ((∃ q : ℚ, jsNumberOfString s = .finite q ∧ q.den = 1 ∧ 1 ≤ q ∧ q ≤ 5) ∨
            (∃ l : IntensityLevel, jsToUpper s = l.value))))) ∧
    IntensityConverter.toDatabase (.num (.finite 1)) = some .VERY_LOW ∧
    IntensityConverter.toDatabase (.num (.finite 2)) = some .LOW ∧
    IntensityConverter.toDatabase (.num (.finite 3)) = some .MODERATE ∧
    IntensityConverter.toDatabase (.num (.finite 4)) = some .HIGH ∧
    IntensityConverter.toDatabase (.num (.finite 5)) = some .VERY_HIGH ∧
    (∀ v : JSVal,
      (∃ e, IntensityDatabaseHelper.prepareForSave v = .error e) ↔
        IntensityConverter.toDatabase v = none) := by
  refine ⟨?_, ?_, ?_, ?_, ?_, ?_, ?_⟩
  · intro v
    cases v with
    | num n =>
      cases n with
      | finite q =>
        simp only [IntensityConverter.toDatabase, numberToEnum_isSome]
        constructor
        · intro h
          exact .inl ⟨q, rfl, h⟩
        · rintro (⟨q', heq, h⟩ | ⟨s, heq, h⟩)
          · obtain ⟨rfl⟩ : q = q' := by
              injection heq with h1
              injection h1
            exact h
          · exact absurd heq (by simp)
      | nan =>
        simp [IntensityConverter.toDatabase]
      | inf =>
        simp [IntensityConverter.toDatabase]
      | negInf =>
        simp [IntensityConverter.toDatabase]
    | str s =>
      have hfind_iff : (IntensityLevel.all.find?
          (fun l => l.value == jsToUpper s)).isSome ↔
          ∃ l : IntensityLevel, jsToUpper s = l.value := by
        rw [List.find?_isSome]
        constructor
        · rintro ⟨l, _, hl⟩
          exact ⟨l, ((by simpa using hl : l.value = jsToUpper s)).symm⟩
        · rintro ⟨l, hl⟩
          exact ⟨l, by cases l <;> decide, by simp [hl]⟩
      have hmiss : ∀ h : IntensityConverter.toDatabase (.str s) =
          IntensityLevel.all.find? (fun l => l.value == jsToUpper s),
          (∀ q : ℚ, jsNumberOfString s = .finite q →
            ¬(q.den = 1 ∧ 1 ≤ q ∧ q ≤ 5)) →
          ((IntensityConverter.toDatabase (.str s)).isSome ↔
            ((∃ q : ℚ, JSVal.str s = .num (.finite q) ∧ q.den = 1 ∧ 1 ≤ q ∧ q ≤ 5) ∨
             (∃ t : String, JSVal.str s = .str t ∧
               ((∃ q : ℚ, jsNumberOfString t = .finite q ∧
                  q.den = 1 ∧ 1 ≤ q ∧ q ≤ 5) ∨
                (∃ l : IntensityLevel, jsToUpper t = l.value))))) := by
        intro hred hno
        rw [hred, hfind_iff]
        constructor
        · intro h
          exact .inr ⟨s, rfl, .inr h⟩
        · rintro (⟨q', heq, _⟩ | ⟨t, heq, h⟩)
          · exact absurd heq (by simp)
          · obtain rfl : s = t := by injection heq
            rcases h with ⟨q', hn', hrest⟩ | h
            · exact absurd hrest (hno q' hn')
            · exact h
      rcases hn : jsNumberOfString s with q | _ | _ | _
      · by_cases hden : q.den = 1
        · rcases hq : IntensityConverter.numberToEnum q with _ | l
          · refine hmiss (by simp [IntensityConverter.toDatabase, hn, hden, hq])
              (fun q' hn' hq' => ?_)
            rw [hn] at hn'
            injection hn' with hqq
            subst hqq
            have := (numberToEnum_isSome q).mpr hq'
            rw [hq] at this
            simp at this
          · have hsome := (numberToEnum_isSome q).mp (by simp [hq])
            have hred : IntensityConverter.toDatabase (.str s) = some l := by
              simp [IntensityConverter.toDatabase, hn, hden, hq]
            rw [hred]
            simp only [Option.isSome_some, true_iff]
            exact .inr ⟨s, rfl, .inl ⟨q, hn, hsome.1, hsome.2.1, hsome.2.2⟩⟩
        · refine hmiss (by simp [IntensityConverter.toDatabase, hn, hden])
            (fun q' hn' hq' => ?_)
          rw [hn] at hn'
          injection hn' with hqq
          subst hqq
          exact hden hq'.1
      · refine hmiss (by simp [IntensityConverter.toDatabase, hn])
          (fun q' hn' _ => by rw [hn] at hn'; exact JSNum.noConfusion hn')
      · refine hmiss (by simp [IntensityConverter.toDatabase, hn])
          (fun q' hn' _ => by rw [hn] at hn'; exact JSNum.noConfusion hn')
      · refine hmiss (by simp [IntensityConverter.toDatabase, hn])
          (fun q' hn' _ => by rw [hn] at hn'; exact JSNum.noConfusion hn')
    | other =>
      simp [IntensityConverter.toDatabase]
  · norm_num [IntensityConverter.toDatabase, IntensityConverter.numberToEnum]
  · norm_num [IntensityConverter.toDatabase, IntensityConverter.numberToEnum]
  · norm_num [IntensityConverter.toDatabase, IntensityConverter.numberToEnum]
  · norm_num [IntensityConverter.toDatabase, IntensityConverter.numberToEnum]
  · norm_num [IntensityConverter.toDatabase, IntensityConverter.numberToEnum]
  · intro v
    rcases h : IntensityConverter.toDatabase v with _ | l <;>
      simp [IntensityDatabaseHelper.prepareForSave, h]

/-- C3 witness: a level-name string is accepted; a non-vocabulary value is
rejected by prepareForSave. -/
theorem toDatabase_characterisation_c3_witness :
    (IntensityConverter.toDatabase (.str "high")).isSome :=
  (toDatabase_characterisation_c3.1 (.str "high")).mpr
    (.inr ⟨"high", rfl, .inr ⟨.HIGH, by decide⟩⟩)

/-! ## Streak tracking
(src/model/streak.model.ts, src/repositories/streak.repository.ts,
src/controllers/emotion/emotion.controller.ts)

Dates are modelled at day granularity: a date that has been normalised with
setHours(0, 0, 0, 0) is the integer index of its calendar day, and the epoch
default new Date(0) is day 0. -/

/-- A streak document. streakStartDate and lastActivityDate are optional in
the schema (and resetStreak stores null into streakStartDate). -/
structure StreakRec where
  currentStreak : ℕ
  longestStreak : ℕ
  streakStartDate : Option ℤ
  lastActivityDate : Option ℤ
  totalMoodTracked : ℕ
  isActive : Bool
deriving DecidableEq

/-- The record created by getUserStreak when none exists: explicit zeros, no
activity dates, and the schema default isActive = true. -/
def initialStreak : StreakRec :=
  { currentStreak := 0
    longestStreak := 0
    streakStartDate := none
    lastActivityDate := none
    totalMoodTracked := 0
    isActive := true }

/-- EmotionController.updateUserStreak acting on the stored streak record of
the user. When no record exists one is created with both streaks at 1;
otherwise the stored last activity day (epoch when missing) is compared with
today and yesterday: same day only increments totalMoodTracked
(incrementMoodCount), yesterday extends the streak and refreshes the longest
streak, and any other day restarts the streak at 1. -/
def updateUserStreak (today : ℤ) : Option StreakRec → StreakRec
  | none =>
    { currentStreak := 1
      longestStreak := 1
      streakStartDate := some today
      lastActivityDate := some today
      totalMoodTracked := 1
      isActive := true }
  | some streak =>
    if streak.lastActivityDate.getD 0 = today then
      { streak with totalMoodTracked := streak.totalMoodTracked + 1 }
    else if streak.lastActivityDate.getD 0 = today - 1 then
      { streak with
        currentStreak := streak.currentStreak + 1
        longestStreak := max (streak.currentStreak + 1) streak.longestStreak
        lastActivityDate := some today
        totalMoodTracked := streak.totalMoodTracked + 1
        isActive := true }
    else
      { streak with
        currentStreak := 1
        streakStartDate := some today
        lastActivityDate := some today
        totalMoodTracked := streak.totalMoodTracked + 1
        isActive := true }

/-- StreakRepository.resetStreak: zero the current streak, deactivate, clear
the start date; the other fields are untouched. -/
def resetStreak (s : StreakRec) : StreakRec :=
  { s with currentStreak := 0, isActive := false, streakStartDate := none }

/-- The streak collection, keyed by userId. -/
def StreakStore : Type := String → Option StreakRec

/-- The full effect of EmotionController.updateUserStreak on the streak
collection: it reads the record of the given user and writes the updated
record back under the same key. -/
def updateUserStreakRun (userId : String) (today : ℤ) (σ : StreakStore) :
    StreakStore :=
  fun u => if u = userId then some (updateUserStreak today (σ userId)) else σ u

/-- The streak records reachable through the streak operations: creation with
zeros by getUserStreak, creation and the update branches of updateUserStreak,
and resetStreak. -/
inductive ReachableStreak : StreakRec → Prop
  | initial : ReachableStreak initialStreak
  | created (today : ℤ) : ReachableStreak (updateUserStreak today none)
  | logged (today : ℤ) (s : StreakRec) :
      ReachableStreak s → ReachableStreak (updateUserStreak today (some s))
  | reset (s : StreakRec) : ReachableStreak s → ReachableStreak (resetStreak s)

/-! ## Claim C1 -/

/-- C1: the three day-boundary outcomes of updateUserStreak on an existing
record, and the created record when none exists. -/
theorem updateUserStreak_branches_c1 (today : ℤ) (s : StreakRec) :
    (s.lastActivityDate.getD 0 = today →
      updateUserStreak today (some s) =
        { s with totalMoodTracked := s.totalMoodTracked + 1 }) ∧
    (s.lastActivityDate.getD 0 = today - 1 → s.lastActivityDate.getD 0 ≠ today →
      updateUserStreak today (some s) =
        { s with
          currentStreak := s.currentStreak + 1
          longestStreak := max (s.currentStreak + 1) s.longestStreak
          lastActivityDate := some today
          totalMoodTracked := s.totalMoodTracked + 1
          isActive := true }) ∧
    (s.lastActivityDate.getD 0 ≠ today → s.lastActivityDate.getD 0 ≠ today - 1 →
      updateUserStreak today (some s) =
        { s with
          currentStreak := 1
          streakStartDate := some today
          lastActivityDate := some today
          totalMoodTracked := s.totalMoodTracked + 1
          isActive := true }) ∧
    updateUserStreak today none =
      { currentStreak := 1
        longestStreak := 1
        streakStartDate := some today
        lastActivityDate := some today
        totalMoodTracked := 1
        isActive := true } := by
  refine ⟨?_, ?_, ?_, rfl⟩
  · intro h
    simp [updateUserStreak, h]
  · intro hy ht
    simp [updateUserStreak, hy, ht]
  · intro ht hy
    simp [updateUserStreak, ht, hy]

/-- C1 witness: the three branches at day 5 on concrete records, and creation. -/
theorem updateUserStreak_branches_c1_witness :
    updateUserStreak 5 (some ⟨3, 4, some 1, some 5, 7, true⟩) =
      ⟨3, 4, some 1, some 5, 8, true⟩ ∧
    updateUserStreak 5 (some ⟨3, 4, some 1, some 4, 7, true⟩) =
      ⟨4, 4, some 1, some 5, 8, true⟩ ∧
    updateUserStreak 5 (some ⟨3, 4, some 1, some 2, 7, false⟩) =
      ⟨1, 4, some 5, some 5, 8, true⟩ ∧
    updateUserStreak 5 none = ⟨1, 1, some 5, some 5, 1, true⟩ := by
  refine ⟨?_, ?_, ?_, (updateUserStreak_branches_c1 5 initialStreak).2.2.2⟩
  · exact (updateUserStreak_branches_c1 5 ⟨3, 4, some 1, some 5, 7, true⟩).1 rfl
  · have h := (updateUserStreak_branches_c1 5
      ⟨3, 4, some 1, some 4, 7, true⟩).2.1 (by decide) (by decide)
    rw [h]
    decide
  · exact (updateUserStreak_branches_c1 5
      ⟨3, 4, some 1, some 2, 7, false⟩).2.2.1 (by decide) (by decide)

/-! ## Claim C7 -/

/-- C7: a further mood log on the day of the last activity changes only
totalMoodTracked; in particular it never lengthens the streak. -/
theorem sameDay_frame_c7 (today : ℤ) (s : StreakRec)
    (h : s.lastActivityDate.getD 0 = today) :
    (updateUserStreak today (some s)).currentStreak = s.currentStreak ∧
    (updateUserStreak today (some s)).longestStreak = s.longestStreak ∧
    (updateUserStreak today (some s)).streakStartDate = s.streakStartDate ∧
    (updateUserStreak today (some s)).lastActivityDate = s.lastActivityDate ∧
    (updateUserStreak today (some s)).isActive = s.isActive ∧
    (updateUserStreak today (some s)).totalMoodTracked =
      s.totalMoodTracked + 1 := by
  simp [updateUserStreak, h]

/-- C7 witness: a second log on day 9 leaves the streak counters of a concrete
record untouched. -/
theorem sameDay_frame_c7_witness :
    (updateUserStreak 9 (some ⟨6, 6, some 3, some 9, 11, true⟩)).currentStreak
      = 6 ∧
    (updateUserStreak 9 (some ⟨6, 6, some 3, some 9, 11, true⟩)).totalMoodTracked
      = 12 :=
  ⟨(sameDay_frame_c7 9 ⟨6, 6, some 3, some 9, 11, true⟩ rfl).1,
   (sameDay_frame_c7 9 ⟨6, 6, some 3, some 9, 11, true⟩ rfl).2.2.2.2.2⟩

/-! ## Claim C9 -/

/-- C9 counterexample: a record created with zeros by getUserStreak and then
updated by a mood log on an ordinary day is reachable and has
currentStreak = 1 greater than longestStreak = 0, because the restart branch
does not refresh longestStreak. -/
theorem streak_invariant_c9_counterexample :
    ReachableStreak (updateUserStreak 20000 (some initialStreak)) ∧
    ¬((updateUserStreak 20000 (some initialStreak)).currentStreak ≤
        (updateUserStreak 20000 (some initialStreak)).longestStreak) :=
  ⟨.logged 20000 initialStreak .initial, by decide⟩

/-- C9 (amended): every reachable streak record satisfies
currentStreak ≤ max longestStreak 1. -/
theorem streak_invariant_c9 (s : StreakRec) (h : ReachableStreak s) :
    s.currentStreak ≤ max s.longestStreak 1 := by
  induction h with
  | initial => decide
  | created today => simp [updateUserStreak]
  | logged today s hs ih =>
    simp only [updateUserStreak]
    split_ifs with h1 h2
    · simpa using ih
    · simp only []
      exact le_max_of_le_left (le_max_left _ _)
    · simp only []
      exact le_max_right _ _
  | reset s hs ih =>
    simp [resetStreak]

/-- C9 amended witness: the invariant at the freshly created zero record. -/
theorem streak_invariant_c9_witness :
    initialStreak.currentStreak ≤ max initialStreak.longestStreak 1 :=
  streak_invariant_c9 initialStreak .initial

/-! ## Claim C6 -/

/-- C6 counterexample: the streak computation writes the persisted streak
collection; running it on an empty store changes the store. -/
theorem streak_effects_c6_counterexample :
    updateUserStreakRun "user1" 20000 (fun _ => none) ≠ (fun _ => none) := by
  intro h
  have h1 := congrFun h "user1"
  simp [updateUserStreakRun] at h1

/-- C6 (amended): the streak computation is deterministic and local: its
result on a user depends only on the current day and that user's stored
record, and every other user's record is left unchanged. The vocabulary and
intensity normalization functions are pure functions of their argument. -/
theorem streak_local_deterministic_c6 (u : String) (t : ℤ)
    (σ1 σ2 : StreakStore) :
    (σ1 u = σ2 u →
      updateUserStreakRun u t σ1 u = updateUserStreakRun u t σ2 u) ∧
    (∀ u2, u2 ≠ u → updateUserStreakRun u t σ1 u2 = σ1 u2) := by
  constructor
  · intro h
    simp [updateUserStreakRun, h]
  · intro u2 hne
    simp [updateUserStreakRun, hne]

/-- C6 amended witness: locality and determinism at a concrete store. -/
theorem streak_local_deterministic_c6_witness :
    updateUserStreakRun "a" 3 (fun _ => none) "b" = none :=
  (streak_local_deterministic_c6 "a" 3 (fun _ => none) (fun _ => none)).2
    "b" (by decide)

/-! ## JavaScript Array.prototype.reduce -/

section ReduceLemmas

variable {α β : Type*}

/-- Array.prototype.reduce with no initial value: none on the empty array,
otherwise fold the tail starting from the head. -/
def reduceJS (step : α → α → α) : List α → Option α
  | [] => none
  | x :: xs => some (xs.foldl step x)

/-- The reducer shape of the mostCommonEmotion computations: keep the
accumulator only when its count is strictly greater, so on ties the later
element wins. -/
def lastMaxStep (f : α → ℕ) (a b : α) : α := if f a > f b then a else b

/-- The reducer shape of the mostCommonIntensity computations: take the
current element only when its count is strictly greater, so on ties the
earlier element wins. -/
def firstMaxStep (f : α → ℕ) (a b : α) : α := if f b > f a then b else a

theorem lastMaxStep_zero_acc (f : α → ℕ) (a c : α) (h : f a = 0) :
    lastMaxStep f a c = c := by
  simp [lastMaxStep, h]

theorem firstMaxStep_zero_arg (f : α → ℕ) (a c : α) (h : f c = 0) :
    firstMaxStep f a c = a := by
  simp [firstMaxStep, h]

theorem foldl_lastMax_filter (f : α → ℕ) (xs : List α) :
    ∀ a : α, (0 < f a ∨ ∃ x ∈ xs, 0 < f x) →
      (xs.filter (fun x => decide (0 < f x))).foldl (lastMaxStep f) a =
        xs.foldl (lastMaxStep f) a := by
  induction xs with
  | nil => intro a _; rfl
  | cons b t ih =>
    intro a h
    by_cases hb : 0 < f b
    · rw [List.filter_cons, if_pos (by simpa using hb), List.foldl_cons,
        List.foldl_cons]
      apply ih
      left
      unfold lastMaxStep
      split_ifs with hab
      · omega
      · exact hb
    · have hb0 : f b = 0 := by omega
      rw [List.filter_cons, if_neg (by simpa using hb), List.foldl_cons]
      by_cases ha : 0 < f a
      · have hstep : lastMaxStep f a b = a := by
          unfold lastMaxStep
          rw [if_pos (by omega)]
        rw [hstep]
        apply ih
        rcases h with ha' | ⟨x, hx, hpx⟩
        · exact .inl ha'
        · rcases List.mem_cons.mp hx with rfl | hxt
          · omega
          · exact .inr ⟨x, hxt, hpx⟩
      · have ha0 : f a = 0 := by omega
        rw [lastMaxStep_zero_acc f a b ha0]
        obtain ⟨x, hxt, hpx⟩ : ∃ x ∈ t, 0 < f x := by
          rcases h with ha' | ⟨x, hx, hpx⟩
          · omega
          · rcases List.mem_cons.mp hx with rfl | hxt
            · omega
            · exact ⟨x, hxt, hpx⟩
        have h2 := ih b (.inr ⟨x, hxt, hpx⟩)
        rw [← h2]
        have hmemf : x ∈ t.filter (fun x => decide (0 < f x)) :=
          List.mem_filter.mpr ⟨hxt, by simpa using hpx⟩
        cases hft : t.filter (fun x => decide (0 < f x)) with
        | nil => rw [hft] at hmemf; exact absurd hmemf (List.not_mem_nil x)
        | cons c u =>
          rw [List.foldl_cons, List.foldl_cons,
            lastMaxStep_zero_acc f a c ha0, lastMaxStep_zero_acc f b c hb0]

theorem foldl_firstMax_filter (f : α → ℕ) (xs : List α) :
    ∀ a : α,
      (xs.filter (fun x => decide (0 < f x))).foldl (firstMaxStep f) a =
        xs.foldl (firstMaxStep f) a := by
  induction xs with
  | nil => intro a; rfl
  | cons b t ih =>
    intro a
    by_cases hb : 0 < f b
    · rw [List.filter_cons, if_pos (by simpa using hb), List.foldl_cons,
        List.foldl_cons]
      exact ih _
    · have hb0 : f b = 0 := by omega
      rw [List.filter_cons, if_neg (by simpa using hb), List.foldl_cons,
        firstMaxStep_zero_arg f a b hb0]
      exact ih a

theorem reduceJS_lastMax_aux (f : α → ℕ) (t : List α) :
    ∀ a : α, f a = 0 → (∃ x ∈ t, 0 < f x) →
      reduceJS (lastMaxStep f) (t.filter (fun x => decide (0 < f x))) =
        some (t.foldl (lastMaxStep f) a) := by
  induction t with
  | nil => intro a _ h; simp at h
  | cons b u ih =>
    intro a ha0 hex
    rw [List.foldl_cons, lastMaxStep_zero_acc f a b ha0]
    by_cases hb : 0 < f b
    · rw [List.filter_cons, if_pos (by simpa using hb)]
      show some ((u.filter _).foldl _ b) = some (u.foldl _ b)
      rw [foldl_lastMax_filter f u b (.inl hb)]
    · have hb0 : f b = 0 := by omega
      rw [List.filter_cons, if_neg (by simpa using hb)]
      have hex2 : ∃ x ∈ u, 0 < f x := by
        rcases hex with ⟨x, hx, hpx⟩
        rcases List.mem_cons.mp hx with rfl | hxu
        · omega
        · exact ⟨x, hxu, hpx⟩
      exact ih b hb0 hex2

theorem reduceJS_lastMax_filter (f : α → ℕ) (l : List α)
    (hl : ∃ x ∈ l, 0 < f x) :
    reduceJS (lastMaxStep f) (l.filter (fun x => decide (0 < f x))) =
      reduceJS (lastMaxStep f) l := by
  cases l with
  | nil => simp at hl
  | cons a t =>
    by_cases ha : 0 < f a
    · rw [List.filter_cons, if_pos (by simpa using ha)]
      show some _ = some _
      rw [foldl_lastMax_filter f t a (.inl ha)]
    · have ha0 : f a = 0 := by omega
      have hex : ∃ x ∈ t, 0 < f x := by
        rcases hl with ⟨x, hx, hpx⟩
        rcases List.mem_cons.mp hx with rfl | hxt
        · omega
        · exact ⟨x, hxt, hpx⟩
      rw [List.filter_cons, if_neg (by simpa using ha)]
      exact reduceJS_lastMax_aux f t a ha0 hex

theorem reduceJS_firstMax_aux (f : α → ℕ) (t : List α) :
    ∀ a : α, f a = 0 → (∃ x ∈ t, 0 < f x) →
      reduceJS (firstMaxStep f) (t.filter (fun x => decide (0 < f x))) =
        some (t.foldl (firstMaxStep f) a) := by
  induction t with
  | nil => intro a _ h; simp at h
  | cons b u ih =>
    intro a ha0 hex
    rw [List.foldl_cons]
    by_cases hb : 0 < f b
    · have hstep : firstMaxStep f a b = b := by
        unfold firstMaxStep
        rw [if_pos (by omega)]
      rw [hstep, List.filter_cons, if_pos (by simpa using hb)]
      show some ((u.filter _).foldl _ b) = some (u.foldl _ b)
      rw [foldl_firstMax_filter f u b]
    · have hb0 : f b = 0 := by omega
      rw [firstMaxStep_zero_arg f a b hb0, List.filter_cons,
        if_neg (by simpa using hb)]
      have hex2 : ∃ x ∈ u, 0 < f x := by
        rcases hex with ⟨x, hx, hpx⟩
        rcases List.mem_cons.mp hx with rfl | hxu
        · omega
        · exact ⟨x, hxu, hpx⟩
      exact ih a ha0 hex2

theorem reduceJS_firstMax_filter (f : α → ℕ) (l : List α)
    (hl : ∃ x ∈ l, 0 < f x) :
    reduceJS (firstMaxStep f) (l.filter (fun x => decide (0 < f x))) =
      reduceJS (firstMaxStep f) l := by
  cases l with
  | nil => simp at hl
  | cons a t =>
    by_cases ha : 0 < f a
    · rw [List.filter_cons, if_pos (by simpa using ha)]
      show some _ = some _
      rw [foldl_firstMax_filter f t a]
    · have ha0 : f a = 0 := by omega
      have hex : ∃ x ∈ t, 0 < f x := by
        rcases hl with ⟨x, hx, hpx⟩
        rcases List.mem_cons.mp hx with rfl | hxt
        · omega
        · exact ⟨x, hxt, hpx⟩
      rw [List.filter_cons, if_neg (by simpa using ha)]
      exact reduceJS_firstMax_aux f t a ha0 hex

theorem foldl_step_map (g : α → β) (s1 : α → α → α) (s2 : β → β → β)
    (hcomm : ∀ a b, s2 (g a) (g b) = g (s1 a b)) (l : List α) :
    ∀ a : α, (l.map g).foldl s2 (g a) = g (l.foldl s1 a) := by
  induction l with
  | nil => intro a; rfl
  | cons b t ih =>
    intro a
    rw [List.map_cons, List.foldl_cons, List.foldl_cons, hcomm]
    exact ih _

theorem reduceJS_map (g : α → β) (s1 : α → α → α) (s2 : β → β → β)
    (hcomm : ∀ a b, s2 (g a) (g b) = g (s1 a b)) (l : List α) :
    reduceJS s2 (l.map g) = (reduceJS s1 l).map g := by
  cases l with
  | nil => rfl
  | cons a t =>
    show some _ = some _
    rw [foldl_step_map g s1 s2 hcomm t a]

theorem filter_map_comm (g : α → β) (p : β → Bool) (l : List α) :
    (l.map g).filter p = (l.filter (fun x => p (g x))).map g := by
  induction l with
  | nil => rfl
  | cons b t ih => by_cases hp : p (g b) <;> simp [hp, ih]

end ReduceLemmas

/-! ## Emotion statistics (src/repositories/emotional.repository.ts and the
localized repository variant)

A stored emotion entry is reduced to the two fields the statistics read:
its emotion and its numeric intensity. The aggregation pipelines group and
count entries; the distributions are the zero-initialised records overlaid
with those group counts, which on a given key is exactly the number of
entries carrying that key. -/

/-- A stored emotion entry as seen by getEmotionStats. -/
structure StatsEntry where
  emotion : EmotionType
  intensity : ℤ
deriving DecidableEq

/-- Number of entries recorded with the given emotion (the group count of the
emotion aggregation). -/
def emotionCount (entries : List StatsEntry) (e : EmotionType) : ℕ :=
  entries.countP (fun x => decide (x.emotion = e))

/-- Number of entries recorded with the given intensity (the group count of
the intensity aggregation). -/
def intensityCount (entries : List StatsEntry) (i : ℤ) : ℕ :=
  entries.countP (fun x => decide (x.intensity = i))

/-- The intensity distribution record: keys 1 to 10 initialised to zero, then
overlaid with the group counts whose id lies between 1 and 10 (both variants
build it identically). -/
def intensityDistributionOf (entries : List StatsEntry) (i : ℤ) : ℕ :=
  if 1 ≤ i ∧ i ≤ 10 then intensityCount entries i else 0

/-- The integer-ordered key list of the intensity distribution record. -/
def intensityKeys : List ℤ := [1, 2, 3, 4, 5, 6, 7, 8, 9, 10]

namespace EmotionRepository

/-- The EmotionStats shape of the first repository variant (the fields the
claim compares). mostCommonEmotion and mostCommonIntensity are always
produced, even on an empty entry set. -/
structure EmotionStats where
  totalEntries : ℕ
  mostCommonEmotion : EmotionType
  mostCommonIntensity : ℤ
  emotionDistribution : EmotionType → ℕ
  intensityDistribution : ℤ → ℕ

/-- getEmotionStats of src/repositories/emotional.repository.ts:
mostCommonEmotion reduces over the keys of the emotion distribution (later
key wins ties), mostCommonIntensity reduces over the entries of the intensity
distribution (earlier key wins ties). The reduce of a nonempty key list never
takes the defaults supplied to getD. -/
def getEmotionStats (entries : List StatsEntry) : EmotionStats :=
  let emotionDistribution := fun e => emotionCount entries e
  let intensityDistribution := intensityDistributionOf entries
  let intensityPairs := intensityKeys.map (fun i => (i, intensityDistribution i))
  { totalEntries := entries.length
    mostCommonEmotion :=
      (reduceJS (lastMaxStep emotionDistribution) EmotionType.all).getD
        EmotionType.NEUTRAL
    mostCommonIntensity :=
      ((reduceJS (firstMaxStep Prod.snd) intensityPairs).getD (1, 0)).1
    emotionDistribution := emotionDistribution
    intensityDistribution := intensityDistribution }

end EmotionRepository

namespace EmotionRepositoryLocalized

/-- The EmotionStats shape of the localized repository variant: the most
common emotion and intensity are null when there are no entries. -/
structure EmotionStats where
  totalEntries : ℕ
  mostCommonEmotion : Option EmotionType
  mostCommonIntensity : Option ℤ
  emotionDistribution : EmotionType → ℕ
  intensityDistribution : ℤ → ℕ

/-- getEmotionStats of the localized repository variant: when totalEntries is
positive, filter the distribution entries down to positive counts and reduce
them (same tie-breaking as the first variant); otherwise both most-common
fields stay null. -/
def getEmotionStats (entries : List StatsEntry) : EmotionStats :=
  let emotionDistribution := fun e => emotionCount entries e
  let intensityDistribution := intensityDistributionOf entries
  let emotionPairs := EmotionType.all.map (fun e => (e, emotionDistribution e))
  let intensityPairs := intensityKeys.map (fun i => (i, intensityDistribution i))
  { totalEntries := entries.length
    mostCommonEmotion :=
      if 0 < entries.length then
        (reduceJS (lastMaxStep Prod.snd)
          (emotionPairs.filter (fun p => decide (0 < p.2)))).map Prod.fst
      else none
    mostCommonIntensity :=
      if 0 < entries.length then
        (reduceJS (firstMaxStep Prod.snd)
          (intensityPairs.filter (fun p => decide (0 < p.2)))).map Prod.fst
      else none
    emotionDistribution := emotionDistribution
    intensityDistribution := intensityDistribution }

end EmotionRepositoryLocalized

/-! ## Claim C8 -/

/-- C8 counterexample: on the empty entry set the first variant reduces over
the zero-initialised distributions and reports the last emotion key and the
first intensity key, while the localized variant reports null. -/
theorem getEmotionStats_c8_counterexample :
    ¬(some (EmotionRepository.getEmotionStats []).mostCommonEmotion =
        (EmotionRepositoryLocalized.getEmotionStats []).mostCommonEmotion ∧
      some (EmotionRepository.getEmotionStats []).mostCommonIntensity =
        (EmotionRepositoryLocalized.getEmotionStats []).mostCommonIntensity) := by
  decide

/-- C8 (amended): for every list of stored entries (whose intensities the
entry schema keeps between 1 and 10) the two getEmotionStats variants agree
on totalEntries, emotionDistribution and intensityDistribution, and on
mostCommonEmotion and mostCommonIntensity whenever at least one entry exists;
on the empty set the localized variant reports null for both most-common
fields while the first variant reports a key of the zero distribution. -/
theorem getEmotionStats_equiv_c8 (entries : List StatsEntry)
    (hb : ∀ x ∈ entries, 1 ≤ x.intensity ∧ x.intensity ≤ 10) :
    (EmotionRepository.getEmotionStats entries).totalEntries =
      (EmotionRepositoryLocalized.getEmotionStats entries).totalEntries ∧
    (EmotionRepository.getEmotionStats entries).emotionDistribution =
      (EmotionRepositoryLocalized.getEmotionStats entries).emotionDistribution ∧
    (EmotionRepository.getEmotionStats entries).intensityDistribution =
      (EmotionRepositoryLocalized.getEmotionStats entries).intensityDistribution ∧
    (entries ≠ [] →
      some (EmotionRepository.getEmotionStats entries).mostCommonEmotion =
        (EmotionRepositoryLocalized.getEmotionStats entries).mostCommonEmotion ∧
      some (EmotionRepository.getEmotionStats entries).mostCommonIntensity =
        (EmotionRepositoryLocalized.getEmotionStats entries).mostCommonIntensity) := by
  refine ⟨rfl, rfl, rfl, ?_⟩
  intro hne
  obtain ⟨x, hx⟩ := List.exists_mem_of_ne_nil entries hne
  have hlen : 0 < entries.length := List.length_pos.mpr hne
  constructor
  · -- mostCommonEmotion
    have hex : ∃ e ∈ EmotionType.all, 0 < emotionCount entries e := by
      refine ⟨x.emotion, by cases hxe : x.emotion <;> decide, ?_⟩
      exact List.countP_pos_iff.mpr ⟨x, hx, by simp⟩
    have hcomm : ∀ a b : EmotionType,
        lastMaxStep Prod.snd (a, emotionCount entries a)
          (b, emotionCount entries b) =
        ((fun e => (e, emotionCount entries e)) :
          EmotionType → EmotionType × ℕ)
          (lastMaxStep (fun e => emotionCount entries e) a b) := by
      intro a b
      unfold lastMaxStep
      split_ifs <;> rfl
    have hmapped :
        (EmotionType.all.map (fun e => (e, emotionCount entries e))).filter
            (fun p => decide (0 < p.2)) =
          (EmotionType.all.filter
            (fun e => decide (0 < emotionCount entries e))).map
            (fun e => (e, emotionCount entries e)) :=
      filter_map_comm _ _ _
    have hred :
        reduceJS (lastMaxStep Prod.snd)
            ((EmotionType.all.map (fun e => (e, emotionCount entries e))).filter
              (fun p => decide (0 < p.2))) =
          (reduceJS (lastMaxStep (fun e => emotionCount entries e))
            EmotionType.all).map (fun e => (e, emotionCount entries e)) := by
      rw [hmapped, reduceJS_map _ _ _ hcomm,
        reduceJS_lastMax_filter (fun e => emotionCount entries e)
          EmotionType.all hex]
    have hA : (EmotionRepository.getEmotionStats entries).mostCommonEmotion =
        (reduceJS (lastMaxStep (fun e => emotionCount entries e))
          EmotionType.all).getD EmotionType.NEUTRAL := rfl
    have hB : (EmotionRepositoryLocalized.getEmotionStats
        entries).mostCommonEmotion =
        if 0 < entries.length then
          (reduceJS (lastMaxStep Prod.snd)
            ((EmotionType.all.map (fun e => (e, emotionCount entries e))).filter
              (fun p => decide (0 < p.2)))).map Prod.fst
        else none := rfl
    rw [hA, hB, if_pos hlen, hred]
    rcases hr : reduceJS (lastMaxStep (fun e => emotionCount entries e))
        EmotionType.all with _ | v
    · exact absurd hr (by simp [EmotionType.all, reduceJS])
    · simp
  · -- mostCommonIntensity
    have hx1 := (hb x hx).1
    have hx10 := (hb x hx).2
    have hkey : x.intensity ∈ intensityKeys := by
      simp only [intensityKeys, List.mem_cons, List.mem_singleton]
      omega
    have hex : ∃ p ∈ intensityKeys.map
        (fun i => (i, intensityDistributionOf entries i)), 0 < p.2 := by
      refine ⟨(x.intensity, intensityDistributionOf entries x.intensity),
        List.mem_map.mpr ⟨x.intensity, hkey, rfl⟩, ?_⟩
      show 0 < intensityDistributionOf entries x.intensity
      unfold intensityDistributionOf
      rw [if_pos ⟨hx1, hx10⟩]
      exact List.countP_pos_iff.mpr ⟨x, hx, by simp⟩
    have hred :
        reduceJS (firstMaxStep Prod.snd)
            ((intensityKeys.map
              (fun i => (i, intensityDistributionOf entries i))).filter
              (fun p => decide (0 < p.2))) =
          reduceJS (firstMaxStep Prod.snd)
            (intensityKeys.map
              (fun i => (i, intensityDistributionOf entries i))) :=
      reduceJS_firstMax_filter Prod.snd _ hex
    have hA : (EmotionRepository.getEmotionStats entries).mostCommonIntensity =
        ((reduceJS (firstMaxStep Prod.snd)
          (intensityKeys.map
            (fun i => (i, intensityDistributionOf entries i)))).getD (1, 0)).1 :=
      rfl
    have hB : (EmotionRepositoryLocalized.getEmotionStats
        entries).mostCommonIntensity =
        if 0 < entries.length then
          (reduceJS (firstMaxStep Prod.snd)
            ((intensityKeys.map
              (fun i => (i, intensityDistributionOf entries i))).filter
              (fun p => decide (0 < p.2)))).map Prod.fst
        else none := rfl
    rw [hA, hB, if_pos hlen, hred]
    rcases hr : reduceJS (firstMaxStep Prod.snd)
        (intensityKeys.map (fun i => (i, intensityDistributionOf entries i)))
        with _ | v
    · exact absurd hr (by simp [intensityKeys, reduceJS])
    · simp

/-- C8 amended witness: the two variants agree on a concrete singleton entry
set. -/
theorem getEmotionStats_equiv_c8_witness :
    some (EmotionRepository.getEmotionStats
        [⟨EmotionType.SAD, 7⟩]).mostCommonEmotion =
      (EmotionRepositoryLocalized.getEmotionStats
        [⟨EmotionType.SAD, 7⟩]).mostCommonEmotion :=
  ((getEmotionStats_equiv_c8 [⟨EmotionType.SAD, 7⟩]
    (by intro x hx; rw [List.mem_singleton] at hx; subst hx;
        exact ⟨by decide, by decide⟩)).2.2.2
    (by simp)).1

/-! ## The user-model emotion vocabulary (src/model/user/emotional.model.ts)
used by the OpenAI service. -/

namespace UserModel

/-- The EmotionType enum of the twelve-emotion user model. -/
inductive EmotionType
  | HAPPY
  | SAD
  | ANGRY
  | ANXIOUS
  | EXCITED
  | CALM
  | FRUSTRATED
  | GRATEFUL
  | LONELY
  | CONFIDENT
  | OVERWHELMED
  | PEACEFUL
deriving DecidableEq

/-- The EmotionStats shape consumed by the OpenAI service (the
IntensityLevel-valued repository variant): distribution lookups that miss
are read as 0 through the || 0 in the service code, so the distributions are
total functions. -/
structure EmotionStats where
  totalEntries : ℕ
  averageStressLevel : ℚ
  mostCommonEmotion : EmotionType
  mostCommonIntensity : IntensityLevel
  emotionDistribution : EmotionType → ℕ
  intensityDistribution : IntensityLevel → ℕ

/-- A stored emotion entry, reduced to the fields the rule-based
recommendation generator reads; both are optional on a Partial entry. -/
structure EmotionEntry where
  emotion : Option EmotionType
  stressLevel : Option ℚ

end UserModel

/-! ## OpenAIService (src/services/openai.service.ts) -/

namespace OpenAIService

/-- The AnalysisResult shape. -/
structure AnalysisResult where
  insights : List String
  trends : List String
  concerns : List String
  positives : List String
  emotionalBalance : String
  riskFactors : List String
deriving DecidableEq

/-- The RecommendationResult shape. -/
structure RecommendationResult where
  immediate : List String
  shortTerm : List String
  longTerm : List String
  professionalHelp : Bool
  resources : List String
  coping : List String
deriving DecidableEq

/-- The OverallSummary shape. -/
structure OverallSummary where
  emotionalWellbeing : String
  keyInsights : List String
  actionPlan : List String
  progress : String
  nextSteps : List String
deriving DecidableEq

/-- generateRecommendations accepts either an entry array or a single partial
entry. -/
inductive EmotionsArg
  | arr (l : List UserModel.EmotionEntry)
  | one (e : UserModel.EmotionEntry)

/-- The emotionsList normalisation: Array.isArray(emotions) ? emotions :
[emotions]. -/
def emotionsList : EmotionsArg → List UserModel.EmotionEntry
  | .arr l => l
  | .one e => [e]

/-- Truthiness-and-comparison test emotion.stressLevel && emotion.stressLevel
> 7 (a missing level is falsy, and 0 fails the comparison anyway). -/
def stressOver7 (e : UserModel.EmotionEntry) : Bool :=
  match e.stressLevel with
  | some v => decide (v > 7)
  | none => false

/-- OpenAIService.generateBasicAnalysis: the rule-based analysis computed
from the statistics alone (the emotions and patterns parameters are unused by
the source body, which the type parameter makes evident). -/
def generateBasicAnalysis {p : Type*} (emotions : List UserModel.EmotionEntry)
    (stats : UserModel.EmotionStats) (patterns : List p) : AnalysisResult :=
  let highIntensityCount :=
    stats.intensityDistribution .HIGH + stats.intensityDistribution .VERY_HIGH
  let totalEntries := stats.totalEntries
  let negativeCount :=
    [UserModel.EmotionType.SAD, .ANGRY, .ANXIOUS, .FRUSTRATED, .OVERWHELMED,
      .LONELY].foldl (fun sum e => sum + stats.emotionDistribution e) 0
  let insights :=
    (if (highIntensityCount : ℚ) > (totalEntries : ℚ) * (6 / 10) then
      ["Ваші емоції зазвичай мають високу інтенсивність"]
     else if (highIntensityCount : ℚ) < (totalEntries : ℚ) * (2 / 10) then
      ["Ваші емоційні реакції загалом помірні"]
     else []) ++
    (if totalEntries > 20 then
      ["Послідовне відстеження емоцій показує гарну самосвідомість"]
     else if totalEntries < 5 then ["Доступні обмежені дані відстеження"]
     else [])
  let concerns :=
    (if (highIntensityCount : ℚ) > (totalEntries : ℚ) * (6 / 10) then
      ["Висока емоційна інтенсивність може вказувати на стрес"] else []) ++
    (if stats.averageStressLevel > 7 then
      ["Виявлено підвищений рівень стресу"] else []) ++
    (if (negativeCount : ℚ) > (totalEntries : ℚ) * (6 / 10) then
      ["Висока частота негативних емоцій"] else []) ++
    (if stats.mostCommonIntensity = .VERY_HIGH then
      ["Переважають емоції дуже високої інтенсивності"] else [])
  let positives :=
    (if ¬((highIntensityCount : ℚ) > (totalEntries : ℚ) * (6 / 10)) ∧
        (highIntensityCount : ℚ) < (totalEntries : ℚ) * (2 / 10) then
      ["Ви підтримуєте емоційну стабільність"] else []) ++
    (if stats.averageStressLevel < 4 then
      ["Добре керований рівень стресу"] else []) ++
    (if ¬((negativeCount : ℚ) > (totalEntries : ℚ) * (6 / 10)) then
      ["Підтримується гарний емоційний баланс"] else []) ++
    (if totalEntries > 20 then ["Регулярні емоційні перевірки"] else []) ++
    (if stats.mostCommonIntensity = .MODERATE then
      ["Збалансовані рівні емоційної інтенсивності"] else [])
  let riskFactors :=
    (if stats.averageStressLevel > 7 then ["Хронічний високий стрес"] else []) ++
    (if (negativeCount : ℚ) > (totalEntries : ℚ) * (6 / 10) then
      ["Стійкі патерни негативного настрою"] else []) ++
    (if stats.mostCommonIntensity = .VERY_HIGH then
      ["Патерни емоційного перевантаження"] else [])
  let trends : List String := []
  { insights := insights
    trends :=
      if trends.isEmpty then
        ["Період відстеження може бути занадто коротким для аналізу трендів"]
      else trends
    concerns := concerns
    positives := positives
    emotionalBalance :=
      if concerns.length > positives.length then "Потребує уваги"
      else "Загалом збалансований"
    riskFactors := riskFactors }

/-- OpenAIService.generateBasicRecommendations: per-entry rules when no
statistics are supplied, aggregate rules otherwise. -/
def generateBasicRecommendations (emotions : EmotionsArg)
    (stats : Option UserModel.EmotionStats) : RecommendationResult :=
  match stats with
  | none =>
    let l := emotionsList emotions
    let immediate0 := l.flatMap (fun e =>
      (if e.emotion = some .ANXIOUS then ["Практикуйте глибоке дихання"]
       else []) ++
      (if e.emotion = some .SAD then ["Зв\x27яжіться з близькими людьми"]
       else []) ++
      (if e.emotion = some .OVERWHELMED then
        ["Розбийте завдання на менші частини"] else []) ++
      (if stressOver7 e then ["Зробіть перерву та відпочиньте"] else []))
    let shortTerm0 := l.flatMap (fun e =>
      if e.emotion = some .SAD then ["Займіться улюбленими справами"] else [])
    let coping := l.flatMap (fun e =>
      (if e.emotion = some .ANXIOUS then ["Техніки заземлення 5-4-3-2-1"]
       else []) ++
      (if e.emotion = some .OVERWHELMED then ["Техніки управління часом"]
       else []))
    { immediate :=
        if immediate0.isEmpty then ["Практикуйте усвідомлене дихання"]
        else immediate0
      shortTerm :=
        if shortTerm0.isEmpty then ["Ведіть щоденник емоцій"] else shortTerm0
      longTerm := ["Розвивайте навички емоційної регуляції"]
      professionalHelp := l.any stressOver7
      resources := ["Додатки для медитації та релаксації"]
      coping := coping }
  | some stats =>
    let a1 := decide (stats.averageStressLevel > 7)
    let highIntensityCount :=
      stats.intensityDistribution .HIGH + stats.intensityDistribution .VERY_HIGH
    let a2 := decide
      ((highIntensityCount : ℚ) > (stats.totalEntries : ℚ) * (5 / 10))
    let sadnessCount := stats.emotionDistribution .SAD
    let a3 := decide ((sadnessCount : ℚ) > (stats.totalEntries : ℚ) * (3 / 10))
    let anxietyCount := stats.emotionDistribution .ANXIOUS
    let a4 := decide ((anxietyCount : ℚ) > (stats.totalEntries : ℚ) * (3 / 10))
    let overwhelmedCount := stats.emotionDistribution .OVERWHELMED
    let a5 := decide
      ((overwhelmedCount : ℚ) > (stats.totalEntries : ℚ) * (2 / 10))
    let positiveCount :=
      [UserModel.EmotionType.HAPPY, .EXCITED, .CALM, .GRATEFUL, .CONFIDENT,
        .PEACEFUL].foldl (fun sum e => sum + stats.emotionDistribution e) 0
    let a6 := decide ((positiveCount : ℚ) < (stats.totalEntries : ℚ) * (3 / 10))
    { immediate :=
        (if a1 then
          ["Практикуйте глибоке дихання", "Робіть короткі перерви протягом дня"]
         else []) ++
        (if a2 then ["Використовуйте техніки заземлення"] else []) ++
        (if a3 then ["Займіться улюбленими справами"] else []) ++
        (if a4 then ["Практикуйте медитацію усвідомленості"] else []) ++
        (if a5 then ["Розбийте завдання на менші, керовані кроки"] else [])
      shortTerm :=
        (if a1 then ["Розгляньте техніки управління стресом"] else []) ++
        (if a2 then ["Практикуйте навички емоційної регуляції"] else []) ++
        (if a3 then ["Зв\x27яжіться з друзями або родиною для підтримки"]
         else []) ++
        (if a5 then
          ["Навчіться говорити \x27ні\x27 додатковим зобов\x27язанням"]
         else []) ++
        (if a6 then ["Заплануйте приємні заходи"] else [])
      longTerm :=
        (if a3 then ["Розгляньте можливість консультації з психологом"]
         else []) ++
        ["Підтримуйте регулярний режим фізичних вправ",
         "Встановіть постійний графік сну"] ++
        (if a6 then ["Будуйте позитивні соціальні зв\x27язки"] else [])
      professionalHelp := a1 || a3
      resources :=
        (if a4 then ["Додатки для медитації: Headspace, Calm"] else []) ++
        ["Ведення щоденника для емоційної обробки",
         "Групи підтримки психічного здоров\x27я"] ++
        (if a6 then ["Вправи вдячності"] else [])
      coping :=
        (if a2 then ["Вправа сенсорного заземлення 5-4-3-2-1"] else []) ++
        (if a4 then ["Прогресивна м\x27язова релаксація"] else []) ++
        (if a5 then ["Техніки управління часом та пріоритизації"] else []) }

/-- OpenAIService.translateIntensity (the fallthrough for an unknown level is
unreachable on the enum). -/
def translateIntensity : IntensityLevel → String
  | .VERY_LOW => "дуже низька"
  | .LOW => "низька"
  | .MODERATE => "помірна"
  | .HIGH => "висока"
  | .VERY_HIGH => "дуже висока"

/-- OpenAIService.calculateWellbeingScore. -/
def calculateWellbeingScore (stats : UserModel.EmotionStats) : ℚ :=
  let positiveCount :=
    [UserModel.EmotionType.HAPPY, .EXCITED, .CALM, .GRATEFUL, .CONFIDENT,
      .PEACEFUL].foldl (fun sum e => sum + stats.emotionDistribution e) 0
  let positiveRatio : ℚ :=
    if 0 < stats.totalEntries then (positiveCount : ℚ) / (stats.totalEntries : ℚ)
    else 0
  let intensityFactor : ℚ :=
    match stats.mostCommonIntensity with
    | .VERY_LOW => 8 / 10
    | .LOW => 8 / 10
    | .MODERATE => 6 / 10
    | .HIGH => 4 / 10
    | .VERY_HIGH => 2 / 10
  let stressFactor := (11 - stats.averageStressLevel) / 10
  (jsRound ((positiveRatio * 4 + intensityFactor * 3 + stressFactor * 3) * 10)
    : ℚ) / 10

/-- OpenAIService.generateBasicSummary. -/
def generateBasicSummary (emotions : List UserModel.EmotionEntry)
    (stats : UserModel.EmotionStats) (analysis : AnalysisResult)
    (recommendations : RecommendationResult) : OverallSummary :=
  let wellbeingScore := calculateWellbeingScore stats
  { emotionalWellbeing :=
      if wellbeingScore > 7 then "Добре"
      else if wellbeingScore > 4 then "Задовільне"
      else "Потребує уваги"
    keyInsights := analysis.insights.take 3
    actionPlan := recommendations.immediate ++ recommendations.shortTerm.take 2
    progress :=
      "Відстежено " ++ toString stats.totalEntries ++
        " емоцій з найчастішою інтенсивністю " ++
        translateIntensity stats.mostCommonIntensity
    nextSteps := recommendations.longTerm.take 3 }

/-- The environment of one service call: whether OPENAI_API_KEY was
configured, the outcome of the external chat-completion call (error when the
network call throws), and the host JSON.parse-and-cast of each response type
(none when JSON.parse throws). -/
structure LLMEnv where
  hasKey : Bool
  call : Except Unit String
  parseAnalysis : String → Option AnalysisResult
  parseRecommendation : String → Option RecommendationResult
  parseSummary : String → Option OverallSummary

/-- The fixed object parseAnalysisResponse returns when JSON.parse throws. -/
def analysisParseDefault : AnalysisResult :=
  { insights := ["Не вдалось розпарсити детальний аналіз"]
    trends := ["Дані тренду недоступні"]
    concerns := []
    positives := []
    emotionalBalance := "Аналіз в процесі"
    riskFactors := [] }

/-- The fixed object parseRecommendationResponse returns when JSON.parse
throws. -/
def recommendationParseDefault : RecommendationResult :=
  { immediate := ["Не вдалось отримати детальні рекомендації"]
    shortTerm := []
    longTerm := []
    professionalHelp := false
    resources := []
    coping := [] }

/-- The fixed object parseSummaryResponse returns when JSON.parse throws. -/
def summaryParseDefault : OverallSummary :=
  { emotionalWellbeing := "Підсумок формується"
    keyInsights := []
    actionPlan := []
    progress := "Аналіз в процесі"
    nextSteps := [] }

/-- OpenAIService.parseAnalysisResponse: JSON.parse the response, falling
back to the fixed default when parsing throws. -/
def parseAnalysisResponse (env : LLMEnv) (response : String) : AnalysisResult :=
  (env.parseAnalysis response).getD analysisParseDefault

/-- OpenAIService.parseRecommendationResponse. -/
def parseRecommendationResponse (env : LLMEnv) (response : String) :
    RecommendationResult :=
  (env.parseRecommendation response).getD recommendationParseDefault

/-- OpenAIService.parseSummaryResponse. -/
def parseSummaryResponse (env : LLMEnv) (response : String) : OverallSummary :=
  (env.parseSummary response).getD summaryParseDefault

/-- OpenAIService.analyzeEmotions: basic analysis when no client is
configured; otherwise call the model inside try/catch, falling back to the
basic analysis when the call throws, and to the parse defaults when only
parsing fails. -/
def analyzeEmotions {p : Type*} (env : LLMEnv)
    (emotions : List UserModel.EmotionEntry) (stats : UserModel.EmotionStats)
    (patterns : List p) : AnalysisResult :=
  if !env.hasKey then generateBasicAnalysis emotions stats patterns
  else
    match env.call with
    | .error _ => generateBasicAnalysis emotions stats patterns
    | .ok response => parseAnalysisResponse env response

/-- OpenAIService.generateRecommendations, with the same try/catch shape. -/
def generateRecommendations (env : LLMEnv) (emotions : EmotionsArg)
    (stats : Option UserModel.EmotionStats) : RecommendationResult :=
  if !env.hasKey then generateBasicRecommendations emotions stats
  else
    match env.call with
    | .error _ => generateBasicRecommendations emotions stats
    | .ok response => parseRecommendationResponse env response

/-- OpenAIService.generateOverallSummary, with the same try/catch shape. -/
def generateOverallSummary (env : LLMEnv)
    (emotions : List UserModel.EmotionEntry) (stats : UserModel.EmotionStats)
    (analysis : AnalysisResult) (recommendations : RecommendationResult) :
    OverallSummary :=
  if !env.hasKey then
    generateBasicSummary emotions stats analysis recommendations
  else
    match env.call with
    | .error _ => generateBasicSummary emotions stats analysis recommendations
    | .ok response => parseSummaryResponse env response

end OpenAIService

/-! ## Claim C5 -/

/-- A service-call environment in which the client is configured, the
external call returns a response, and JSON.parse of that response throws. -/
def c5Env : OpenAIService.LLMEnv :=
  { hasKey := true
    call := .ok "not json"
    parseAnalysis := fun _ => none
    parseRecommendation := fun _ => none
    parseSummary := fun _ => none }

/-- A concrete statistics record with no entries. -/
def c5Stats : UserModel.EmotionStats :=
  { totalEntries := 0
    averageStressLevel := 0
    mostCommonEmotion := .HAPPY
    mostCommonIntensity := .MODERATE
    emotionDistribution := fun _ => 0
    intensityDistribution := fun _ => 0 }

/-- C5 counterexample: when the response cannot be parsed, analyzeEmotions
returns the fixed parse default, not the rule-based analysis of the same
inputs, so a parse failure does not produce the rule-based fallback. -/
theorem openai_fallback_c5_counterexample :
    OpenAIService.analyzeEmotions c5Env ([] : List UserModel.EmotionEntry)
        c5Stats ([] : List Unit) ≠
      OpenAIService.generateBasicAnalysis ([] : List UserModel.EmotionEntry)
        c5Stats ([] : List Unit) := by
  intro h
  have h1 := congrArg OpenAIService.AnalysisResult.insights h
  have hL : (OpenAIService.analyzeEmotions c5Env
      ([] : List UserModel.EmotionEntry) c5Stats ([] : List Unit)).insights =
      ["Не вдалось розпарсити детальний аналіз"] := rfl
  have hR : (OpenAIService.generateBasicAnalysis
      ([] : List UserModel.EmotionEntry) c5Stats ([] : List Unit)).insights =
      ["Доступні обмежені дані відстеження"] := by
    simp only [OpenAIService.generateBasicAnalysis, c5Stats]
    norm_num
  rw [hL, hR] at h1
  exact absurd h1 (by decide)

/-- C5 (amended): no error propagates out of the three operations: a missing
API key or a throwing external call yields the rule-based fallback computed
from the same inputs, while a response whose parsing throws yields the fixed
parse-default object of the operation. -/
theorem openai_fallback_c5 {p : Type*} (env : OpenAIService.LLMEnv)
    (emotions : List UserModel.EmotionEntry) (emoArg : OpenAIService.EmotionsArg)
    (stats : UserModel.EmotionStats) (statsOpt : Option UserModel.EmotionStats)
    (patterns : List p) (analysis : OpenAIService.AnalysisResult)
    (recs : OpenAIService.RecommendationResult) :
    (env.hasKey = false →
      OpenAIService.analyzeEmotions env emotions stats patterns =
        OpenAIService.generateBasicAnalysis emotions stats patterns ∧
      OpenAIService.generateRecommendations env emoArg statsOpt =
        OpenAIService.generateBasicRecommendations emoArg statsOpt ∧
      OpenAIService.generateOverallSummary env emotions stats analysis recs =
        OpenAIService.generateBasicSummary emotions stats analysis recs) ∧
    (∀ u, env.call = .error u →
      OpenAIService.analyzeEmotions env emotions stats patterns =
        OpenAIService.generateBasicAnalysis emotions stats patterns ∧
      OpenAIService.generateRecommendations env emoArg statsOpt =
        OpenAIService.generateBasicRecommendations emoArg statsOpt ∧
      OpenAIService.generateOverallSummary env emotions stats analysis recs =
        OpenAIService.generateBasicSummary emotions stats analysis recs) ∧
    (env.hasKey = true → ∀ r, env.call = .ok r →
      (env.parseAnalysis r = none →
        OpenAIService.analyzeEmotions env emotions stats patterns =
          OpenAIService.analysisParseDefault) ∧
      (env.parseRecommendation r = none →
        OpenAIService.generateRecommendations env emoArg statsOpt =
          OpenAIService.recommendationParseDefault) ∧
      (env.parseSummary r = none →
        OpenAIService.generateOverallSummary env emotions stats analysis recs =
          OpenAIService.summaryParseDefault)) := by
  refine ⟨?_, ?_, ?_⟩
  · intro hk
    refine ⟨?_, ?_, ?_⟩ <;>
      simp [OpenAIService.analyzeEmotions,
        OpenAIService.generateRecommendations,
        OpenAIService.generateOverallSummary, hk]
  · intro u hu
    refine ⟨?_, ?_, ?_⟩ <;>
      · rcases hk : env.hasKey <;>
          simp [OpenAIService.analyzeEmotions,
            OpenAIService.generateRecommendations,
            OpenAIService.generateOverallSummary, hk, hu]
  · intro hk r hr
    refine ⟨?_, ?_, ?_⟩ <;> intro hp <;>
      simp [OpenAIService.analyzeEmotions,
        OpenAIService.generateRecommendations,
        OpenAIService.generateOverallSummary, hk, hr,
        OpenAIService.parseAnalysisResponse,
        OpenAIService.parseRecommendationResponse,
        OpenAIService.parseSummaryResponse, hp]

/-- C5 amended witness: without an API key, analyzeEmotions is the basic
analysis at concrete inputs; with a key and an unparseable response it is the
fixed default. -/
theorem openai_fallback_c5_witness :
    OpenAIService.generateRecommendations c5Env (.arr []) none =
      OpenAIService.recommendationParseDefault :=
  ((openai_fallback_c5 c5Env [] (.arr []) c5Stats none ([] : List Unit)
      OpenAIService.analysisParseDefault
      OpenAIService.recommendationParseDefault).2.2
    rfl "not json" rfl).2.1 rfl
